import Mathlib

/-!
Verification development for the md-link-checker incremental link-validation
engine.  All definitions are shallow embeddings, translated from the
TypeScript sources: `src/slugify.ts`, `src/LinkChecker.ts`,
`src/DocumentState.ts`, `src/DocumentStore.ts` and `src/Environment.ts`.
Host-library behaviour (vscode.Uri, node `path.posix`, JS string methods)
is modelled operationally for the POSIX/ASCII cases the engine exercises.
-/

namespace MdLinkChecker

/-! ## JS string primitives used by src/slugify.ts -/

/-- Model of JS `String.prototype.toLowerCase` on the ASCII range: code points
65..90 are shifted to 97..122, every other character is unchanged. -/
def jsToLower (c : Char) : Char :=
  if 65 ≤ c.toNat ∧ c.toNat ≤ 90 then Char.ofNat (c.toNat + 32) else c

/-- Whitespace class shared by the JS regex `\s` and `String.prototype.trim`
(the ASCII subset: space, tab, line feed, carriage return, vertical tab,
form feed). -/
def wsChar (c : Char) : Bool :=
  c.toNat = 32 || c.toNat = 9 || c.toNat = 10 || c.toNat = 13 || c.toNat = 11 || c.toNat = 12

/-- Model of `String.prototype.trim`: drop leading and trailing whitespace. -/
def jsTrim (s : List Char) : List Char :=
  ((s.dropWhile wsChar).reverse.dropWhile wsChar).reverse

/-- Model of `.replace(/\s+/g, "-")`: every maximal whitespace run becomes a
single hyphen.  The boolean argument records whether the previous character
belonged to a whitespace run. -/
def wsToHyphenAux : Bool → List Char → List Char
  | _, [] => []
  | prevWs, c :: rest =>
    if wsChar c then
      (if prevWs then [] else [Char.ofNat 45]) ++ wsToHyphenAux true rest
    else
      c :: wsToHyphenAux false rest

/-- Entry point of the whitespace-run replacement (no run is open initially). -/
def wsToHyphen (s : List Char) : List Char := wsToHyphenAux false s

/-- Code points of the punctuation class removed by githubSlugifier
(the character class of the `.replace(/[...]/g, '')` call in src/slugify.ts,
ASCII punctuators followed by the listed CJK punctuators). -/
def punctCodes : List Nat :=
  [93, 91, 33, 39, 35, 36, 37, 38, 40, 41, 42, 43, 44, 46, 47, 58, 59, 60,
   61, 62, 63, 64, 92, 94, 95, 123, 124, 125, 126, 96,
   0x3002, 0xff0c, 0x3001, 0xff1b, 0xff1a, 0xff1f, 0xff01, 0x2026, 0x2014,
   0xb7, 0x2c9, 0xa8, 0x2018, 0x2019, 0x201c, 0x201d, 0x3005, 0xff5e,
   0x2016, 0x2236, 0xff02, 0xff07, 0xff40, 0xff5c, 0x3003, 0x3014, 0x3015,
   0x3008, 0x3009, 0x300a, 0x300b, 0x300c, 0x300d, 0x300e, 0x300f, 0xff0e,
   0x3016, 0x3017, 0x3010, 0x3011, 0xff08, 0xff09, 0xff3b, 0xff3d, 0xff5b,
   0xff5d]

/-- Membership test for the punctuation class. -/
def punctChar (c : Char) : Bool := punctCodes.contains c.toNat

/-- Model of `.replace(/^\-+/, '')`: drop leading hyphens. -/
def dropLeadHyphens (s : List Char) : List Char :=
  s.dropWhile (fun c => c.toNat = 45)

/-- Model of `.replace(/\-+$/, '')`: drop trailing hyphens. -/
def dropTrailHyphens (s : List Char) : List Char :=
  (s.reverse.dropWhile (fun c => c.toNat = 45)).reverse

/-! ## Model of `encodeURI` -/

/-- Uppercase hexadecimal digit for a value below 16. -/
def hexDigit (n : Nat) : Char := Char.ofNat (if n < 10 then 48 + n else 55 + n)

/-- UTF-8 byte sequence of a code point (1 to 4 bytes). -/
def utf8Bytes (n : Nat) : List Nat :=
  if n < 0x80 then [n]
  else if n < 0x800 then [0xc0 + n / 0x40, 0x80 + n % 0x40]
  else if n < 0x10000 then
    [0xe0 + n / 0x1000, 0x80 + (n / 0x40) % 0x40, 0x80 + n % 0x40]
  else
    [0xf0 + n / 0x40000, 0x80 + (n / 0x1000) % 0x40, 0x80 + (n / 0x40) % 0x40,
     0x80 + n % 0x40]

/-- Characters `encodeURI` leaves unescaped: ASCII letters, digits, and the
URI mark/reserved set (codes of the characters in
`- _ . ! ~ * ( ) ; / ? : @ & = + $ , #` and the apostrophe). -/
def uriUnescaped (c : Char) : Bool :=
  decide (48 ≤ c.toNat ∧ c.toNat ≤ 57) ||
  decide (65 ≤ c.toNat ∧ c.toNat ≤ 90) ||
  decide (97 ≤ c.toNat ∧ c.toNat ≤ 122) ||
  [45, 95, 46, 33, 126, 42, 39, 40, 41, 59, 47, 63, 58, 64, 38, 61, 43, 36,
   44, 35].contains c.toNat

/-- Percent-encoding of one character, following `encodeURI`. -/
def encodeURIChar (c : Char) : List Char :=
  if uriUnescaped c then [c]
  else (utf8Bytes c.toNat).flatMap
    (fun b => [Char.ofNat 37, hexDigit (b / 16), hexDigit (b % 16)])

/-- Model of the JS global `encodeURI`. -/
def jsEncodeURI (s : String) : String := String.mk (s.data.flatMap encodeURIChar)

/-! ## Translation of src/slugify.ts -/

/-- Translation of the `Slug` class: a wrapper around the slug string. -/
structure Slug where
  value : String
deriving DecidableEq, Repr

/-- Translation of `Slug.equals`: string comparison of the values. -/
def Slug.equals (a b : Slug) : Bool := a.value == b.value

namespace githubSlugifier

/-- Translation of `githubSlugifier.fromHeadingNoEncoding`: trim, lower-case,
replace whitespace runs with hyphens, remove the known punctuators, and drop
leading and trailing hyphens. -/
def fromHeadingNoEncoding (heading : String) : String :=
  String.mk
    (dropTrailHyphens
      (dropLeadHyphens
        (List.filter (fun c => !punctChar c)
          (wsToHyphen (List.map jsToLower (jsTrim heading.data))))))

/-- Translation of `githubSlugifier.fromHeading`: URI-encode the unencoded
slug of the heading. -/
def fromHeading (heading : String) : Slug :=
  Slug.mk (jsEncodeURI (fromHeadingNoEncoding heading))

/-- Translation of `githubSlugifier.fromFragment`: URI-encode the fragment as
written; note that no case folding or whitespace/punctuation rewriting
happens on this side. -/
def fromFragment (fragment : String) : Slug :=
  Slug.mk (jsEncodeURI fragment)

end githubSlugifier

/-! ## Case-insensitivity facts about the slugifier (claim C9) -/

/-- Evaluation fact for `Char.ofNat` below the surrogate range. -/
theorem toNat_ofNat_valid (n : Nat) (h : n < 0xd800) : (Char.ofNat n).toNat = n := by
  simp [Char.ofNat, Nat.isValidChar, h, Char.ofNatAux, Char.toNat, UInt32.toNat,
    BitVec.toNat_ofNatLt]

/-- Auxiliary fact: the whitespace class is invariant under ASCII
lower-casing. -/
theorem wsChar_jsToLower (c : Char) : wsChar (jsToLower c) = wsChar c := by
  unfold jsToLower
  split
  · rename_i h
    have h32 : (Char.ofNat (c.toNat + 32)).toNat = c.toNat + 32 :=
      toNat_ofNat_valid _ (by omega)
    have hL : wsChar (Char.ofNat (c.toNat + 32)) = false := by
      unfold wsChar
      rw [h32]
      simp only [Bool.or_eq_false_iff, decide_eq_false_iff_not]
      omega
    have hR : wsChar c = false := by
      unfold wsChar
      simp only [Bool.or_eq_false_iff, decide_eq_false_iff_not]
      omega
    rw [hL, hR]
  · rfl

/-- Lower-casing commutes with dropping a whitespace run. -/
theorem dropWhile_wsChar_map_jsToLower (s : List Char) :
    (s.map jsToLower).dropWhile wsChar = (s.dropWhile wsChar).map jsToLower := by
  induction s with
  | nil => rfl
  | cons c rest ih =>
    simp only [List.map_cons, List.dropWhile_cons, wsChar_jsToLower]
    by_cases h : wsChar c
    · simp [h, ih]
    · simp [h]

/-- Lower-casing commutes with trimming. -/
theorem jsTrim_map_jsToLower (s : List Char) :
    jsTrim (s.map jsToLower) = (jsTrim s).map jsToLower := by
  unfold jsTrim
  rw [dropWhile_wsChar_map_jsToLower, ← List.map_reverse,
    dropWhile_wsChar_map_jsToLower, ← List.map_reverse]

/-- Headings that agree after lower-casing produce the same unencoded slug. -/
theorem fromHeadingNoEncoding_case_insensitive (h1 h2 : String)
    (hcase : h1.data.map jsToLower = h2.data.map jsToLower) :
    githubSlugifier.fromHeadingNoEncoding h1 =
      githubSlugifier.fromHeadingNoEncoding h2 := by
  have htrim : (jsTrim h1.data).map jsToLower = (jsTrim h2.data).map jsToLower := by
    have := congrArg jsTrim hcase
    rwa [jsTrim_map_jsToLower, jsTrim_map_jsToLower] at this
  unfold githubSlugifier.fromHeadingNoEncoding
  rw [htrim]

/-- C9 counterexample: the claim that slugging makes fragment-to-heading
matching case-insensitive fails as stated.  The heading text "Intro" and the
fragment text "Intro" differ only in letter case (they are equal), yet
`fromFragment` keeps the capital letter while `fromHeading` lower-cases it,
so the two slugs differ and a fragment written with different capitalization
than the heading slug is not found. -/
theorem C9_case_insensitive_counterexample :
    ¬ ∀ (heading fragment : String),
        heading.data.map jsToLower = fragment.data.map jsToLower →
        githubSlugifier.fromFragment fragment = githubSlugifier.fromHeading heading := by
  intro hall
  exact absurd (hall "Intro" "Intro" rfl) (by decide)

/-- C9 amended: only the heading side of the slug algorithm is case-folded.
Two heading texts that differ only in letter case always produce the same
slug, and a fragment written exactly as the slugged (lower-cased) form of a
heading matches that heading; but `fromFragment` itself performs no case
folding, so fragment-to-heading matching is not case-insensitive in general
(see the counterexample). -/
theorem C9_slug_case_folding_amended :
    (∀ h1 h2 : String, h1.data.map jsToLower = h2.data.map jsToLower →
        githubSlugifier.fromHeading h1 = githubSlugifier.fromHeading h2) ∧
    (∀ h : String,
        githubSlugifier.fromFragment (githubSlugifier.fromHeadingNoEncoding h) =
          githubSlugifier.fromHeading h) := by
  constructor
  · intro h1 h2 hcase
    unfold githubSlugifier.fromHeading
    rw [fromHeadingNoEncoding_case_insensitive h1 h2 hcase]
  · intro h
    rfl

/-- Witness: the amended C9 theorem applied at concrete inputs. -/
theorem C9_slug_case_folding_amended_witness :
    githubSlugifier.fromHeading "My Intro" = githubSlugifier.fromHeading "my INTRO" ∧
    githubSlugifier.fromFragment (githubSlugifier.fromHeadingNoEncoding "My Intro") =
      githubSlugifier.fromHeading "My Intro" :=
  And.intro
    (C9_slug_case_folding_amended.1 "My Intro" "my INTRO" (by decide))
    (C9_slug_case_folding_amended.2 "My Intro")

/-! ## Operational model of vscode.Uri (external host library)

vscode.Uri.parse follows the RFC 3986 split regex
(scheme `[^:/?#]+` before a colon, authority after `//`, path up to a
question mark or hash, query up to a hash, fragment after the hash), with
the non-strict default scheme "file" when no scheme is present.  The model
below performs the same split by cutting the input at the first hash and
the first question mark before it, which is equivalent because none of the
earlier components may contain those characters.  Percent decoding and
Windows drive-letter handling are not modelled (POSIX paths, verbatim
components). -/

structure Uri where
  scheme : String
  authority : String
  path : String
  query : String
  fragment : String
deriving DecidableEq, Repr

/-- Replacement of the fragment component, model of `uri.with(.fragment)`. -/
def Uri.withFragment (u : Uri) (f : String) : Uri :=
  { u with fragment := f }

/-- Model of `uri.fsPath` for POSIX: the path, behind the UNC authority when
one is present. -/
def Uri.fsPath (u : Uri) : String :=
  if u.authority = "" then u.path else "//" ++ u.authority ++ u.path

/-- Model of `vscode.Uri.parse` (non-strict): split the RFC 3986 components
and default the scheme to "file" when absent. -/
def uriParse (s : String) : Uri :=
  let l1 := s.data
  let beforeHash := l1.takeWhile (fun x => !(x == '#'))
  let fragment := (l1.dropWhile (fun x => !(x == '#'))).drop 1
  let beforeQuery := beforeHash.takeWhile (fun x => !(x == '?'))
  let query := (beforeHash.dropWhile (fun x => !(x == '?'))).drop 1
  let schemePre := beforeQuery.takeWhile (fun x => !(x == ':' || x == '/'))
  let hasScheme := !schemePre.isEmpty &&
    (beforeQuery.drop schemePre.length).head? == some ':'
  let rest := if hasScheme then (beforeQuery.drop schemePre.length).drop 1
    else beforeQuery
  let hasAuth := rest.take 2 == ['/', '/']
  let afterSlashes := rest.drop 2
  let authority := if hasAuth then afterSlashes.takeWhile (fun x => !(x == '/'))
    else []
  let path := if hasAuth then afterSlashes.dropWhile (fun x => !(x == '/'))
    else rest
  { scheme := if hasScheme then String.mk schemePre else "file"
  , authority := String.mk authority
  , path := String.mk path
  , query := String.mk query
  , fragment := String.mk fragment }

/-! ## Operational model of node `path.posix` (external host library) -/

/-- Computable model of `String.prototype.startsWith`. -/
def strStartsWith (s pre : String) : Bool :=
  s.data.take pre.data.length == pre.data

/-- Split a character list at every occurrence of the separator. -/
def splitOnChar (c : Char) : List Char → List (List Char)
  | [] => [[]]
  | x :: rest =>
    match splitOnChar c rest with
    | [] => [[]]
    | cur :: done =>
      if x == c then [] :: cur :: done else (x :: cur) :: done

/-- Join path segments with slashes. -/
def joinSlash : List String → String
  | [] => ""
  | [x] => x
  | x :: rest => x ++ "/" ++ joinSlash rest

/-- Dot-dot resolution over already-split path segments, as done by
`path.posix.normalize`: a `..` segment pops the previous real segment, is
dropped at the root of an absolute path, and is kept at the front of a
relative path. -/
def resolveDots (abs : Bool) : List String → List String → List String
  | acc, [] => acc.reverse
  | acc, seg :: rest =>
    if seg == ".." then
      match acc with
      | [] => if abs then resolveDots abs [] rest else resolveDots abs [".."] rest
      | top :: acctail =>
        if top == ".." then resolveDots abs (seg :: acc) rest
        else resolveDots abs acctail rest
    else resolveDots abs (seg :: acc) rest

/-- Model of `path.posix.normalize` (trailing-slash preservation omitted). -/
def posixNormalize (p : String) : String :=
  let abs := strStartsWith p "/"
  let segs := ((splitOnChar '/' p.data).map String.mk).filter
    (fun seg => !(seg == "") && !(seg == "."))
  let core := resolveDots abs [] segs
  let body := joinSlash core
  if abs then "/" ++ body
  else if body = "" then "." else body

/-- Model of `path.posix.join` on two segments, used by `vscode.Uri.joinPath`. -/
def posixJoin (a b : String) : String :=
  if a = "" && b = "" then "."
  else if a = "" then posixNormalize b
  else if b = "" then posixNormalize a
  else posixNormalize (a ++ "/" ++ b)

/-- Model of `path.posix.dirname`. -/
def posixDirname (p : String) : String :=
  let l := p.data
  let noTrail := (l.reverse.dropWhile (fun c => c == '/')).reverse
  if noTrail.isEmpty then
    if l.isEmpty then "." else "/"
  else
    let revPre := noTrail.reverse.dropWhile (fun c => !(c == '/'))
    if revPre.isEmpty then "."
    else
      let dir := (revPre.drop 1).reverse
      if dir.isEmpty then "/" else String.mk dir

/-- Model of `vscode.Uri.joinPath` with one extra path argument. -/
def uriJoinPath (base : Uri) (p : String) : Uri :=
  { base with path := posixJoin base.path p }

/-! ## Translation of `parseLink` from src/LinkChecker.ts (Address Resolver) -/

/-- Translation of the `angleBracketLinkRe` replacement: strip one pair of
surrounding angle brackets.  The JS regex `^<(.*)>$` does not match across
line terminators, hence the extra check on the inner text. -/
def stripAngle (link : String) : String :=
  let l := link.data
  if l.length ≥ 2 && l.head? == some '<' && l.getLast? == some '>' &&
      (l.drop 1).dropLast.all (fun c => !(c == '\n' || c == '\r')) then
    String.mk ((l.drop 1).dropLast)
  else link

/-- Translation of `link.toLowerCase().startsWith("file")`. -/
def startsWithFile (link : String) : Bool :=
  strStartsWith (String.mk (link.data.map jsToLower)) "file"

/-- Translation of `parseLink(document, link)`: resolve a raw authored link
to a target Uri, or none when unresolvable.  The source document is given by
its uri and the optional workspace folder root. -/
def parseLink (docUri : Uri) (workspaceFolder : Option Uri) (link : String) :
    Option Uri :=
  let cleanLink := stripAngle link
  let externalSchemeUri := uriParse cleanLink
  if externalSchemeUri.scheme ≠ "file" ∨ startsWithFile link then
    some externalSchemeUri
  else
    let tempUri := uriParse ("vscode-resource:" ++ link)
    let resourceUri : Option Uri :=
      if tempUri.path = "" then
        some docUri
      else if strStartsWith tempUri.path "/" then
        workspaceFolder.map (fun root => uriJoinPath root tempUri.path)
      else
        let documentUri :=
          if docUri.scheme = "vscode-bulkeditpreview" then uriParse docUri.query
          else docUri
        if documentUri.scheme = "untitled" then
          workspaceFolder.map (fun root => uriJoinPath root tempUri.path)
        else
          some (uriJoinPath { documentUri with
            path := posixDirname documentUri.fsPath } tempUri.path)
    resourceUri.map (fun u => u.withFragment tempUri.fragment)

/-- C5: when the direct-scheme rule does not apply (the cleaned link parses
with the default "file" scheme and the raw text does not start with "file",
i.e. the link is not recognized as a non-file scheme URI), `parseLink`
treats the link as a path reference relative to the source document: an
empty path resolves to the source document itself; an absolute path is
joined onto the workspace root and is unresolvable (none, no error) without
a workspace root; a relative path is joined onto the source document's
containing directory, or onto the workspace root when the source document
is an untitled buffer; and in every case the fragment parsed from the link
text is reattached unchanged to the produced target. -/
theorem C5_parseLink_path_resolution
    (docUri : Uri) (ws : Option Uri) (link : String) (t : Uri)
    (ht : t = uriParse ("vscode-resource:" ++ link))
    (hfile : (uriParse (stripAngle link)).scheme = "file")
    (hnotfile : startsWithFile link = false)
    (hnotbulk : docUri.scheme ≠ "vscode-bulkeditpreview") :
    (t.path = "" →
      parseLink docUri ws link = some (docUri.withFragment t.fragment)) ∧
    (t.path ≠ "" → strStartsWith t.path "/" = true →
      parseLink docUri ws link =
        ws.map (fun root => (uriJoinPath root t.path).withFragment t.fragment) ∧
      (ws = none → parseLink docUri ws link = none)) ∧
    (t.path ≠ "" → strStartsWith t.path "/" = false → docUri.scheme = "untitled" →
      parseLink docUri ws link =
        ws.map (fun root => (uriJoinPath root t.path).withFragment t.fragment)) ∧
    (t.path ≠ "" → strStartsWith t.path "/" = false → docUri.scheme ≠ "untitled" →
      parseLink docUri ws link =
        some ((uriJoinPath { docUri with path := posixDirname docUri.fsPath }
          t.path).withFragment t.fragment)) := by
  subst ht
  refine ⟨fun hempty => ?_, fun hne hslash => ⟨?_, fun hwnone => ?_⟩,
    fun hne hslash hunt => ?_, fun hne hslash hunt => ?_⟩ <;>
    simp_all [parseLink, hfile, hnotfile, Option.map]
  · cases ws <;> simp_all
  · cases ws <;> simp_all

/-- Witness: C5 applied to a concrete relative link inside a workspace. -/
theorem C5_parseLink_path_resolution_witness :
    parseLink (Uri.mk "file" "" "/ws/docs/readme.md" "" "")
        (some (Uri.mk "file" "" "/ws" "" "")) "sub/other.md#intro" =
      some (Uri.mk "file" "" "/ws/docs/sub/other.md" "" "intro") := by
  have h :=
    (C5_parseLink_path_resolution (Uri.mk "file" "" "/ws/docs/readme.md" "" "")
      (some (Uri.mk "file" "" "/ws" "" "")) "sub/other.md#intro"
      (uriParse ("vscode-resource:" ++ "sub/other.md#intro")) rfl
      (by decide) (by decide) (by decide)).2.2.2
      (by decide) (by decide) (by decide)
  exact h.trans (by decide)

/-! ## Translation of the Link Prober (src/LinkChecker.ts) -/

/-- Discriminator of `LinkCheckResult.checkType`. -/
inductive CheckType where
  | web
  | file
  | none
deriving DecidableEq, Repr

/-- Model of a JS error value carried by a failed request; only the `code`
property is inspected by the engine (for CERT_HAS_EXPIRED). -/
structure RequestErr where
  code : Option String
deriving DecidableEq, Repr

/-- Model of `ParsedLinkedDocument` as consumed by the checker: identity,
version, and the slugged headings backing `hasSluggedHeading`. -/
structure LinkedDoc where
  uri : Uri
  documentVersion : Int
  headSlugs : List Slug
deriving DecidableEq, Repr

/-- Translation of `ParsedDocument.hasSluggedHeading`: some heading slug
equals the given slug. -/
def LinkedDoc.hasSluggedHeading (d : LinkedDoc) (s : Slug) : Bool :=
  d.headSlugs.any (fun h => h.equals s)

/-- Translation of the `LinkCheckResult` interface. -/
structure LinkCheckResult where
  checkType : CheckType
  statusCode : Int
  uri : Option Uri
  pathFound : Bool
  fragmentFound : Bool
  hasFragment : Option Bool
  countryCode : Option String
  linkedDocument : Option LinkedDoc
  requestError : Option RequestErr
deriving DecidableEq, Repr

/-- Translation of the `UrlCheckResult` interface of NodeFetchUrlChecker. -/
structure UrlCheckResult where
  err : Option RequestErr
  alive : Bool
  statusCode : Int
deriving DecidableEq, Repr

/-- Translation of `createError` inside NodeFetchUrlChecker.checkUrl. -/
def createError (e : RequestErr) : UrlCheckResult :=
  { err := some e, alive := false, statusCode := 0 }

/-- Translation of `isOk`: the status is in the 2xx range. -/
def isOk (status : Int) : Bool := 200 ≤ status && status < 300

/-- Translation of `shouldTryGetInsteadOfHead`: the status is in the 4xx
range. -/
def shouldTryGetInsteadOfHead (status : Int) : Bool :=
  400 ≤ status && status < 500

/-- Translation of `createResult`. -/
def createResult (status : Int) : UrlCheckResult :=
  { statusCode := status, alive := isOk status, err := none }

/-- Translation of `NodeFetchUrlChecker.checkUrl`.  The network is an
oracle: `headResp` is the outcome of the HEAD fetch and `getResp` the
outcome of the GET fetch, each either a status code or a thrown error.  The
second component of the output records whether the GET retry was issued. -/
def checkUrl (headResp getResp : Except RequestErr Int) :
    UrlCheckResult × Bool :=
  match headResp with
  | Except.error e => (createError e, false)
  | Except.ok st =>
    if shouldTryGetInsteadOfHead st then
      match getResp with
      | Except.error e => (createError e, true)
      | Except.ok st2 => (createResult st2, true)
    else (createResult st, false)

/-- C4: the web check issues HEAD first and retries with GET exactly when
the HEAD status is in the 4xx range; the final result is alive exactly when
its status code is in the 2xx range; and a thrown network/TLS error from
either request produces the distinguished error result (statusCode 0 with
the error attached, not alive) instead of an exception. -/
theorem C4_checkUrl_head_get_classification
    (headResp getResp : Except RequestErr Int) :
    ((checkUrl headResp getResp).2 = true ↔
      ∃ st, headResp = Except.ok st ∧ 400 ≤ st ∧ st < 500) ∧
    ((checkUrl headResp getResp).1.alive =
      isOk (checkUrl headResp getResp).1.statusCode) ∧
    ((checkUrl headResp getResp).1.err = none →
      ((checkUrl headResp getResp).1.alive = true ↔
        200 ≤ (checkUrl headResp getResp).1.statusCode ∧
        (checkUrl headResp getResp).1.statusCode < 300)) ∧
    (∀ e, headResp = Except.error e →
      checkUrl headResp getResp =
        ({ err := some e, alive := false, statusCode := 0 }, false)) ∧
    (∀ st e, headResp = Except.ok st → 400 ≤ st → st < 500 →
      getResp = Except.error e →
      checkUrl headResp getResp =
        ({ err := some e, alive := false, statusCode := 0 }, true)) ∧
    (∀ st, headResp = Except.ok st → ¬ (400 ≤ st ∧ st < 500) →
      checkUrl headResp getResp = (createResult st, false)) ∧
    (∀ st st2, headResp = Except.ok st → 400 ≤ st → st < 500 →
      getResp = Except.ok st2 →
      checkUrl headResp getResp = (createResult st2, true)) := by
  cases headResp with
  | error e =>
    refine ⟨?_, ?_, ?_, ?_, ?_, ?_, ?_⟩ <;>
      simp [checkUrl, createError, isOk]
  | ok st =>
    by_cases h4 : shouldTryGetInsteadOfHead st = true
    · have h4p : 400 ≤ st ∧ st < 500 := by
        simpa [shouldTryGetInsteadOfHead] using h4
      cases getResp with
      | error e =>
        refine ⟨?_, ?_, ?_, ?_, ?_, ?_, ?_⟩ <;>
          simp [checkUrl, h4, createError, createResult, isOk, h4p]
      | ok st2 =>
        refine ⟨?_, ?_, ?_, ?_, ?_, ?_, ?_⟩ <;>
          simp [checkUrl, h4, createError, createResult, isOk, h4p]
        intro a b hst hge hlt hst2
        subst hst2
        exact And.intro rfl rfl
    · have h4p : ¬ (400 ≤ st ∧ st < 500) := by
        simpa [shouldTryGetInsteadOfHead] using h4
      refine ⟨?_, ?_, ?_, ?_, ?_, ?_, ?_⟩ <;>
        simp [checkUrl, h4, createError, createResult, isOk, h4p] <;> omega

/-- Witness: C4 applied to a HEAD 405 answered by a GET 200, to a HEAD 200,
and to a thrown TLS error. -/
theorem C4_checkUrl_head_get_classification_witness :
    checkUrl (Except.ok 405) (Except.ok 200) = (createResult 200, true) ∧
    checkUrl (Except.ok 200) (Except.ok 500) = (createResult 200, false) ∧
    checkUrl (Except.error (RequestErr.mk (some "CERT_HAS_EXPIRED")))
        (Except.ok 200) =
      ({ err := some (RequestErr.mk (some "CERT_HAS_EXPIRED")), alive := false,
         statusCode := 0 }, false) :=
  And.intro
    ((C4_checkUrl_head_get_classification (Except.ok 405) (Except.ok 200)).2.2.2.2.2.2
      405 200 rfl (by decide) (by decide) rfl)
    (And.intro
      ((C4_checkUrl_head_get_classification (Except.ok 200) (Except.ok 500)).2.2.2.2.2.1
        200 rfl (by decide))
      ((C4_checkUrl_head_get_classification
          (Except.error (RequestErr.mk (some "CERT_HAS_EXPIRED"))) (Except.ok 200)).2.2.2.1
        (RequestErr.mk (some "CERT_HAS_EXPIRED")) rfl))

/-- Translation of `MainLinkChecker.checkFileLink` for file/untitled scheme
links.  The filesystem and open-document collaborators are oracles:
`tryGetParsed` models `document.tryGetParsedDocument` (queried at the uri
without fragment), `readFileRes` the `(content, error)` pair of `readFile`,
`parseHeadings` the heading extraction of `markdownParser.parseDocument`,
and `fileExistsRes` the `(found, error)` pair of `fileExists`. -/
def checkFileLink (uri : Uri) (tryGetParsed : Uri → Option LinkedDoc)
    (readFileRes : Option String × Option RequestErr)
    (parseHeadings : String → List Slug)
    (fileExistsRes : Bool × Option RequestErr) : LinkCheckResult :=
  let hasFragment := uri.fragment ≠ ""
  let linkedDocUri := uri.withFragment ""
  let linkedDocument := tryGetParsed linkedDocUri
  let pfr : Bool × Bool × Option RequestErr :=
    match linkedDocument with
    | some d =>
      (true,
       if hasFragment then
         d.hasSluggedHeading (githubSlugifier.fromFragment uri.fragment)
       else false,
       none)
    | none =>
      if hasFragment then
        match readFileRes with
        | (some content, err) =>
          (true,
           (parseHeadings content).any
             (fun hd => hd.equals (githubSlugifier.fromFragment uri.fragment)),
           err)
        | (none, err) => (false, false, err)
      else
        (fileExistsRes.1, false, fileExistsRes.2)
  { checkType := CheckType.file
  , uri := some uri
  , pathFound := pfr.1
  , hasFragment := some hasFragment
  , fragmentFound := pfr.2.1
  , statusCode := if pfr.1 then 200 else 404
  , requestError := pfr.2.2
  , linkedDocument := linkedDocument
  , countryCode := none }

/-- C10: for a file or untitled scheme link the check result carries status
code 200 exactly when the path was found and 404 exactly when it was not,
independently of the fragment flags: in particular a found path with a
present but unmatched fragment still reports 200, the fragment miss being
visible only through pathFound/hasFragment/fragmentFound. -/
theorem C10_checkFileLink_status_codes (uri : Uri)
    (tryGetParsed : Uri → Option LinkedDoc)
    (readFileRes : Option String × Option RequestErr)
    (parseHeadings : String → List Slug)
    (fileExistsRes : Bool × Option RequestErr) :
    ((checkFileLink uri tryGetParsed readFileRes parseHeadings
        fileExistsRes).statusCode = 200 ↔
      (checkFileLink uri tryGetParsed readFileRes parseHeadings
        fileExistsRes).pathFound = true) ∧
    ((checkFileLink uri tryGetParsed readFileRes parseHeadings
        fileExistsRes).statusCode = 404 ↔
      (checkFileLink uri tryGetParsed readFileRes parseHeadings
        fileExistsRes).pathFound = false) ∧
    (checkFileLink uri tryGetParsed readFileRes parseHeadings
      fileExistsRes).checkType = CheckType.file := by
  unfold checkFileLink
  dsimp only
  constructor
  · split <;> simp
  · constructor
    · split <;> simp
    · rfl

/-- Witness: C10 applied to a tracked document that exists but lacks the
linked heading; the status code is still 200 while fragmentFound is false. -/
theorem C10_checkFileLink_status_codes_witness :
    (checkFileLink (Uri.mk "file" "" "/ws/b.md" "" "missing")
        (fun _ => some (LinkedDoc.mk (Uri.mk "file" "" "/ws/b.md" "" "") 3
          [Slug.mk "intro"]))
        (none, none) (fun _ => []) (false, none)).statusCode = 200 ∧
    (checkFileLink (Uri.mk "file" "" "/ws/b.md" "" "missing")
        (fun _ => some (LinkedDoc.mk (Uri.mk "file" "" "/ws/b.md" "" "") 3
          [Slug.mk "intro"]))
        (none, none) (fun _ => []) (false, none)).fragmentFound = false ∧
    (checkFileLink (Uri.mk "file" "" "/ws/b.md" "" "missing")
        (fun _ => some (LinkedDoc.mk (Uri.mk "file" "" "/ws/b.md" "" "") 3
          [Slug.mk "intro"]))
        (none, none) (fun _ => []) (false, none)).hasFragment = some true :=
  And.intro
    ((C10_checkFileLink_status_codes (Uri.mk "file" "" "/ws/b.md" "" "missing")
        (fun _ => some (LinkedDoc.mk (Uri.mk "file" "" "/ws/b.md" "" "") 3
          [Slug.mk "intro"]))
        (none, none) (fun _ => []) (false, none)).1.mpr (by decide))
    (And.intro (by decide) (by decide))

/-! ## Translation of DocumentSubscriptionManager (src/DocumentStore.ts) -/

/-- Model of `DocumentSubscriptionManager` state: the last broadcast version
(`version`, undefined before any publish or after a dispose publish) and the
registered handler set.  Handlers are identified by numbers; the `Set`
insertion order is kept as a duplicate-free list. -/
structure SubManager where
  version : Option Int
  handlers : List Nat
deriving DecidableEq, Repr

/-- Result of a successful subscribe: the new registry state and whether the
handler was immediately scheduled (the `setTimeout(handler)` call; the
handler is never invoked inline during subscribe). -/
structure SubscribeOk where
  state : SubManager
  scheduled : Bool
deriving DecidableEq, Repr

/-- Translation of `DocumentSubscriptionManager.subscribe`: reject an
already-registered handler with an error, otherwise add the handler and
schedule it asynchronously when a version has already been published that is
newer than `startingDocumentVersion`, or when `startingDocumentVersion` is
unknown. -/
def SubManager.subscribe (m : SubManager) (startingDocumentVersion : Option Int)
    (handler : Nat) : Except String SubscribeOk :=
  if m.handlers.contains handler then
    Except.error "handler should be unique"
  else
    let scheduled :=
      match m.version, startingDocumentVersion with
      | some _, none => true
      | some v, some sv => decide (sv < v)
      | none, _ => false
    Except.ok
      { state := { version := m.version, handlers := m.handlers ++ [handler] }
      , scheduled := scheduled }

/-- Translation of the unsubscribe closure returned by `subscribe`: remove
the handler from the set (the emptiness callback to the store is not part of
this state). -/
def SubManager.unsubscribe (m : SubManager) (handler : Nat) : SubManager :=
  { m with handlers := m.handlers.erase handler }

/-- Translation of `DocumentSubscriptionManager.onDocumentChanged` (publish):
store the version and return the handlers to invoke synchronously. -/
def SubManager.onDocumentChanged (m : SubManager) (documentVersion : Option Int) :
    SubManager × List Nat :=
  ({ m with version := documentVersion }, m.handlers)

/-- C6: subscribe registers the handler and schedules it asynchronously
exactly when a version has already been published that is newer than
`fromVersion` or `fromVersion` is unknown; the returned unsubscribe removes
the handler again (restoring the registry when the handler was fresh); and
subscribing an already-registered handler is rejected with an error. -/
theorem C6_subscribe_semantics (m : SubManager) (fromVersion : Option Int)
    (handler : Nat) :
    (handler ∈ m.handlers →
      m.subscribe fromVersion handler = Except.error "handler should be unique") ∧
    (handler ∉ m.handlers →
      ∃ out, m.subscribe fromVersion handler = Except.ok out ∧
        out.state.handlers = m.handlers ++ [handler] ∧
        out.state.version = m.version ∧
        (out.scheduled = true ↔
          ∃ v, m.version = some v ∧
            (fromVersion = none ∨ ∃ sv, fromVersion = some sv ∧ sv < v)) ∧
        out.state.unsubscribe handler = m) := by
  constructor
  · intro hmem
    simp [SubManager.subscribe, hmem]
  · intro hmem
    have hc : m.handlers.contains handler = false := by simpa using hmem
    unfold SubManager.subscribe
    simp only [hc, Bool.false_eq_true, if_false]
    refine ⟨_, rfl, rfl, rfl, ?_, ?_⟩
    · cases m.version with
      | none => simp
      | some v =>
        cases fromVersion with
        | none => simp
        | some sv => simp
    · simp [SubManager.unsubscribe, List.erase_append_right _ hmem]

/-- Witness: C6 applied to a registry that has already published version 5
(a duplicate handler 7 is rejected; a fresh handler 9 starting from version
3 is accepted and scheduled). -/
theorem C6_subscribe_semantics_witness :
    ((SubManager.mk (some 5) [7]).subscribe (some 3) 7 =
      Except.error "handler should be unique") ∧
    ((SubManager.mk (some 5) [7]).subscribe (some 3) 9 =
      Except.ok (SubscribeOk.mk (SubManager.mk (some 5) [7, 9]) true)) :=
  And.intro
    ((C6_subscribe_semantics (SubManager.mk (some 5) [7]) (some 3) 7).1
      (by decide))
    rfl

/-! ## Translation of the Link Cache (DocumentState.checkLinkWithCache) -/

/-- Translation of the `LinkCacheEntry` interface of src/DocumentState.ts.
`lastCheckTime` uses the sentinel values of the source: -1 while the check
promise is in flight, -2 after the promise failed, otherwise the monotonic
completion time.  Promises and subscriptions are identified by numbers. -/
structure LinkCacheEntry where
  resultPromise : Nat
  lastCheckTime : Int
  lastVisitDocVersion : Int
  linkedDocSubscription : Option Nat
  localLink : Bool
deriving DecidableEq, Repr

/-- Model of the per-document `Map<string, LinkCacheEntry>` as an
insertion-ordered association list. -/
abbrev LinkCache := List (String × LinkCacheEntry)

/-- Model of `Map.get`. -/
def cacheGet : LinkCache → String → Option LinkCacheEntry
  | [], _ => none
  | kv :: rest, link => if kv.1 == link then some kv.2 else cacheGet rest link

/-- Model of `Map.set`: replace in place when the key exists (JS Map keeps
the original position), append otherwise. -/
def cacheSet : LinkCache → String → LinkCacheEntry → LinkCache
  | [], link, entry => [(link, entry)]
  | kv :: rest, link, entry =>
    if kv.1 == link then (link, entry) :: rest
    else kv :: cacheSet rest link entry

/-- Translation of the TTL computation
`(this.env.configuration.cacheTtl ?? 5*60)*1000` (milliseconds). -/
def ttlMs (cacheTtl : Option Int) : Int := (cacheTtl.getD (5 * 60)) * 1000

/-- Outcome of the synchronous part of `checkLinkWithCache`: the updated
cache, the promise handed back to the caller, whether a new check (a
`linkChecker.checkLink` invocation) was started, and the subscription torn
down when a TTL-expired entry was replaced. -/
structure CheckDecision where
  cache : LinkCache
  promise : Nat
  started : Bool
  unsubbed : Option Nat
deriving DecidableEq, Repr

/-- Translation of the synchronous body of
`DocumentState.checkLinkWithCache` (lines 175-201 and 247-248): reuse the
cached promise when the entry exists, is not failed, and is in flight or
within TTL of its completion, refreshing `lastVisitDocVersion`; otherwise
unsubscribe an expired entry and install a fresh in-flight entry whose
promise is the new check. -/
def checkLinkWithCacheStep (cfgTtl : Option Int) (now : Int)
    (freshPromise : Nat) (docVersion : Int) (cache : LinkCache)
    (link : String) : CheckDecision :=
  let newEntry : LinkCacheEntry :=
    { resultPromise := freshPromise, lastCheckTime := -1,
      lastVisitDocVersion := docVersion, linkedDocSubscription := none,
      localLink := false }
  match cacheGet cache link with
  | some entry =>
    if entry.lastCheckTime ≠ -2 then
      let entry1 := { entry with lastVisitDocVersion := docVersion }
      if entry1.lastCheckTime = -1 then
        CheckDecision.mk (cacheSet cache link entry1) entry1.resultPromise
          false none
      else if now - entry1.lastCheckTime ≤ ttlMs cfgTtl then
        CheckDecision.mk (cacheSet cache link entry1) entry1.resultPromise
          false none
      else
        CheckDecision.mk (cacheSet cache link newEntry) freshPromise true
          entry1.linkedDocSubscription
    else
      CheckDecision.mk (cacheSet cache link newEntry) freshPromise true none
  | none =>
    CheckDecision.mk (cacheSet cache link newEntry) freshPromise true none

/-- Setting a key makes it visible to the next lookup. -/
theorem cacheGet_cacheSet (cache : LinkCache) (link : String)
    (entry : LinkCacheEntry) :
    cacheGet (cacheSet cache link entry) link = some entry := by
  induction cache with
  | nil => simp [cacheGet, cacheSet]
  | cons kv rest ih =>
    by_cases h : kv.1 == link
    · simp [cacheGet, cacheSet, h]
    · simp [cacheGet, cacheSet, h, ih]

/-- Reuse case of the cache step: a live entry (not failed, in flight or
within TTL) short-circuits the check. -/
theorem checkStep_reuse (cfgTtl : Option Int) (now : Int) (fresh : Nat)
    (v : Int) (cache : LinkCache) (link : String) (entry : LinkCacheEntry)
    (hget : cacheGet cache link = some entry)
    (hfail : entry.lastCheckTime ≠ -2)
    (hlive : entry.lastCheckTime = -1 ∨ now - entry.lastCheckTime ≤ ttlMs cfgTtl) :
    checkLinkWithCacheStep cfgTtl now fresh v cache link =
      CheckDecision.mk
        (cacheSet cache link { entry with lastVisitDocVersion := v })
        entry.resultPromise false none := by
  unfold checkLinkWithCacheStep
  rw [hget]
  rcases hlive with h1 | h2
  · simp [hfail, h1]
  · by_cases h1 : entry.lastCheckTime = -1
    · simp [hfail, h1]
    · simp [hfail, h1, h2]

/-- Start case of the cache step when no entry exists. -/
theorem checkStep_start_absent (cfgTtl : Option Int) (now : Int) (fresh : Nat)
    (v : Int) (cache : LinkCache) (link : String)
    (hget : cacheGet cache link = none) :
    checkLinkWithCacheStep cfgTtl now fresh v cache link =
      CheckDecision.mk
        (cacheSet cache link
          (LinkCacheEntry.mk fresh (-1) v none false))
        fresh true none := by
  unfold checkLinkWithCacheStep
  rw [hget]

/-- Start case of the cache step on a failed entry. -/
theorem checkStep_start_failed (cfgTtl : Option Int) (now : Int) (fresh : Nat)
    (v : Int) (cache : LinkCache) (link : String) (entry : LinkCacheEntry)
    (hget : cacheGet cache link = some entry)
    (hfail : entry.lastCheckTime = -2) :
    checkLinkWithCacheStep cfgTtl now fresh v cache link =
      CheckDecision.mk
        (cacheSet cache link
          (LinkCacheEntry.mk fresh (-1) v none false))
        fresh true none := by
  unfold checkLinkWithCacheStep
  rw [hget]
  simp [hfail]

/-- Start case of the cache step on a TTL-expired entry, tearing down its
subscription. -/
theorem checkStep_start_expired (cfgTtl : Option Int) (now : Int) (fresh : Nat)
    (v : Int) (cache : LinkCache) (link : String) (entry : LinkCacheEntry)
    (hget : cacheGet cache link = some entry)
    (hfail : entry.lastCheckTime ≠ -2)
    (hrun : entry.lastCheckTime ≠ -1)
    (hold : ttlMs cfgTtl < now - entry.lastCheckTime) :
    checkLinkWithCacheStep cfgTtl now fresh v cache link =
      CheckDecision.mk
        (cacheSet cache link
          (LinkCacheEntry.mk fresh (-1) v none false))
        fresh true entry.linkedDocSubscription := by
  unfold checkLinkWithCacheStep
  rw [hget]
  simp only [hfail, hrun]
  have hnot : ¬ (now - entry.lastCheckTime ≤ ttlMs cfgTtl) := by omega
  simp [hfail, hrun, hnot]

/-- Iterated cache-step calls for the same link: each element of the call
list carries its own clock reading, document version and fresh promise id.
Returns the final cache, the promises observed by the callers, and the
number of new checks started. -/
def iterateCalls (cfgTtl : Option Int) (link : String) :
    List (Int × Int × Nat) → LinkCache → LinkCache × List Nat × Nat
  | [], cache => (cache, [], 0)
  | c :: rest, cache =>
    let d := checkLinkWithCacheStep cfgTtl c.1 c.2.2 c.2.1 cache link
    let r := iterateCalls cfgTtl link rest d.cache
    (r.1, d.promise :: r.2.1, (if d.started then 1 else 0) + r.2.2)

/-- While the entry is in flight, any number of further calls starts no new
check and every caller observes the stored promise. -/
theorem iterateCalls_inflight (cfgTtl : Option Int) (link : String)
    (calls : List (Int × Int × Nat)) :
    ∀ (cache : LinkCache) (entry : LinkCacheEntry),
      cacheGet cache link = some entry → entry.lastCheckTime = -1 →
      (iterateCalls cfgTtl link calls cache).2.2 = 0 ∧
      ∀ p ∈ (iterateCalls cfgTtl link calls cache).2.1,
        p = entry.resultPromise := by
  induction calls with
  | nil =>
    intro cache entry hget hin
    simp [iterateCalls]
  | cons c rest ih =>
    intro cache entry hget hin
    have hfail : entry.lastCheckTime ≠ -2 := by rw [hin]; decide
    have hstep := checkStep_reuse cfgTtl c.1 c.2.2 c.2.1 cache link entry hget
      hfail (Or.inl hin)
    have hget2 : cacheGet
        (cacheSet cache link { entry with lastVisitDocVersion := c.2.1 }) link =
        some { entry with lastVisitDocVersion := c.2.1 } :=
      cacheGet_cacheSet cache link _
    have hih := ih (cacheSet cache link { entry with lastVisitDocVersion := c.2.1 })
      { entry with lastVisitDocVersion := c.2.1 } hget2 hin
    unfold iterateCalls
    rw [hstep]
    refine ⟨by simpa using hih.1, ?_⟩
    intro p hp
    simp only [List.mem_cons] at hp
    rcases hp with hp | hp
    · simpa using hp
    · exact hih.2 p hp

/-- C1: the cache deduplicates checks per (document, address).  First, a
cache hit that is not failed and is in flight or within TTL returns the
stored promise without starting a new check (only `lastVisitDocVersion` is
refreshed).  Second, from an in-flight entry any number of further calls
performs zero new checks and every caller observes the stored promise.
Third, starting from no cache entry, a burst of 1+N calls issued before the
first check resolves performs exactly one check and every caller observes
the first call's promise. -/
theorem C1_cache_single_flight (cfgTtl : Option Int) (link : String) :
    (∀ (now : Int) (fresh : Nat) (v : Int) (cache : LinkCache)
        (entry : LinkCacheEntry),
      cacheGet cache link = some entry →
      entry.lastCheckTime ≠ -2 →
      (entry.lastCheckTime = -1 ∨ now - entry.lastCheckTime ≤ ttlMs cfgTtl) →
      checkLinkWithCacheStep cfgTtl now fresh v cache link =
        CheckDecision.mk
          (cacheSet cache link { entry with lastVisitDocVersion := v })
          entry.resultPromise false none) ∧
    (∀ (calls : List (Int × Int × Nat)) (cache : LinkCache)
        (entry : LinkCacheEntry),
      cacheGet cache link = some entry → entry.lastCheckTime = -1 →
      (iterateCalls cfgTtl link calls cache).2.2 = 0 ∧
      ∀ p ∈ (iterateCalls cfgTtl link calls cache).2.1,
        p = entry.resultPromise) ∧
    (∀ (c0 : Int × Int × Nat) (rest : List (Int × Int × Nat))
        (cache : LinkCache),
      cacheGet cache link = none →
      (iterateCalls cfgTtl link (c0 :: rest) cache).2.2 = 1 ∧
      ∀ p ∈ (iterateCalls cfgTtl link (c0 :: rest) cache).2.1, p = c0.2.2) := by
  refine ⟨?_, ?_, ?_⟩
  · intro now fresh v cache entry hget hfail hlive
    exact checkStep_reuse cfgTtl now fresh v cache link entry hget hfail hlive
  · intro calls cache entry hget hin
    exact iterateCalls_inflight cfgTtl link calls cache entry hget hin
  · intro c0 rest cache hget
    have hstep := checkStep_start_absent cfgTtl c0.1 c0.2.2 c0.2.1 cache link hget
    have hget2 : cacheGet
        (cacheSet cache link (LinkCacheEntry.mk c0.2.2 (-1) c0.2.1 none false))
        link = some (LinkCacheEntry.mk c0.2.2 (-1) c0.2.1 none false) :=
      cacheGet_cacheSet cache link _
    have hih := iterateCalls_inflight cfgTtl link rest
      (cacheSet cache link (LinkCacheEntry.mk c0.2.2 (-1) c0.2.1 none false))
      (LinkCacheEntry.mk c0.2.2 (-1) c0.2.1 none false) hget2 rfl
    unfold iterateCalls
    rw [hstep]
    refine ⟨by simpa using hih.1, ?_⟩
    intro p hp
    simp only [List.mem_cons] at hp
    rcases hp with hp | hp
    · simpa using hp
    · exact hih.2 p hp

/-- Witness: C1 applied to a concrete burst of three calls for one address
starting from an empty cache (exactly one check, every caller sees promise
5), and to a fresh completed entry being reused. -/
theorem C1_cache_single_flight_witness :
    (checkLinkWithCacheStep (some 10) 500 77 2
        [("https://a", LinkCacheEntry.mk 42 100 1 none false)] "https://a" =
      CheckDecision.mk
        [("https://a", LinkCacheEntry.mk 42 100 2 none false)] 42 false none) ∧
    ((iterateCalls (some 10) "https://a"
        [(0, 1, 5), (1, 1, 6), (2, 1, 7)] []).2.2 = 1 ∧
      (iterateCalls (some 10) "https://a"
        [(0, 1, 5), (1, 1, 6), (2, 1, 7)] []).2.1 = [5, 5, 5]) := by
  refine ⟨?_, ?_, ?_⟩
  · have h := (C1_cache_single_flight (some 10) "https://a").1 500 77 2
      [("https://a", LinkCacheEntry.mk 42 100 1 none false)]
      (LinkCacheEntry.mk 42 100 1 none false) (by decide) (by decide)
      (Or.inr (by decide))
    exact h.trans (by decide)
  · exact ((C1_cache_single_flight (some 10) "https://a").2.2 (0, 1, 5)
      [(1, 1, 6), (2, 1, 7)] [] (by decide)).1
  · decide

/-! ## Translation of Environment.updateConfig (src/Environment.ts) -/

/-- Model of the values the `mdLinkChecker` section of the workspace
configuration can carry: package.json declares both `countryCodeRegex` and
`cacheTtl` (the latter documented as "Number of seconds to consider cached
link check result valid", default 300). -/
structure WorkspaceConfig where
  countryCodeRegex : Option String
  cacheTtl : Option Int
deriving DecidableEq, Repr

/-- Translation of the `Configuration` interface. -/
structure Configuration where
  countryCodeRegex : Option String
  cacheTtl : Option Int
deriving DecidableEq, Repr

/-- Translation of `Environment.updateConfig`: a fresh configuration object
is filled by `initConfig`, whose handler invokes only
`configVal("countryCodeRegex")`; no other key is copied, so `cacheTtl` is
left undefined regardless of the workspace setting. -/
def updateConfig (config : WorkspaceConfig) : Configuration :=
  { countryCodeRegex := config.countryCodeRegex, cacheTtl := none }

/-- C3 (code bug evidence): `updateConfig` never reads the `cacheTtl`
setting, so the effective TTL used by the cache step is always the default
300 seconds (300000 ms) no matter what the operator configured, while the
reuse/recheck behaviour at that effective TTL does hold: a non-failed
completed entry younger than the effective TTL is reused without a new
check, and an older one triggers exactly one new check. -/
theorem C3_cacheTtl_ignored_default_only (config : WorkspaceConfig) :
    ((updateConfig config).cacheTtl = none ∧
      ttlMs (updateConfig config).cacheTtl = 300000) ∧
    (∀ (now : Int) (fresh : Nat) (v : Int) (cache : LinkCache) (link : String)
        (entry : LinkCacheEntry),
      cacheGet cache link = some entry →
      entry.lastCheckTime ≠ -2 → entry.lastCheckTime ≠ -1 →
      now - entry.lastCheckTime ≤ 300000 →
      (checkLinkWithCacheStep (updateConfig config).cacheTtl now fresh v cache
          link).started = false ∧
      (checkLinkWithCacheStep (updateConfig config).cacheTtl now fresh v cache
          link).promise = entry.resultPromise) ∧
    (∀ (now : Int) (fresh : Nat) (v : Int) (cache : LinkCache) (link : String)
        (entry : LinkCacheEntry),
      cacheGet cache link = some entry →
      entry.lastCheckTime ≠ -2 → entry.lastCheckTime ≠ -1 →
      300000 < now - entry.lastCheckTime →
      (checkLinkWithCacheStep (updateConfig config).cacheTtl now fresh v cache
          link).started = true ∧
      (checkLinkWithCacheStep (updateConfig config).cacheTtl now fresh v cache
          link).promise = fresh) := by
  have httl : ttlMs (updateConfig config).cacheTtl = 300000 := by
    simp [updateConfig, ttlMs]
  refine ⟨⟨rfl, httl⟩, ?_, ?_⟩
  · intro now fresh v cache link entry hget hfail hrun hyoung
    have h := checkStep_reuse (updateConfig config).cacheTtl now fresh v cache
      link entry hget hfail (Or.inr (by rw [httl]; exact hyoung))
    rw [h]
    exact And.intro rfl rfl
  · intro now fresh v cache link entry hget hfail hrun hold
    have h := checkStep_start_expired (updateConfig config).cacheTtl now fresh v
      cache link entry hget hfail hrun (by rw [httl]; exact hold)
    rw [h]
    exact And.intro rfl rfl

/-- Witness: C3 applied to a configuration that sets `cacheTtl` to 10
seconds; the effective TTL is still 300000 ms, and an entry 200000 ms old
(far beyond the configured 10 s) is still served from the cache. -/
theorem C3_cacheTtl_ignored_default_only_witness :
    ((updateConfig (WorkspaceConfig.mk none (some 10))).cacheTtl = none ∧
      ttlMs (updateConfig (WorkspaceConfig.mk none (some 10))).cacheTtl =
        300000) ∧
    (checkLinkWithCacheStep
        (updateConfig (WorkspaceConfig.mk none (some 10))).cacheTtl 200100 9 1
        [("https://a", LinkCacheEntry.mk 4 100 1 none false)]
        "https://a").started = false :=
  And.intro (C3_cacheTtl_ignored_default_only (WorkspaceConfig.mk none (some 10))).1
    (((C3_cacheTtl_ignored_default_only (WorkspaceConfig.mk none (some 10))).2.1
      200100 9 1 [("https://a", LinkCacheEntry.mk 4 100 1 none false)]
      "https://a" (LinkCacheEntry.mk 4 100 1 none false) (by decide) (by decide)
      (by decide) (by decide)).1)

/-! ## Failure memoization and diagnostics (DocumentState) -/

/-- Translation of the rejection handler installed by `checkLinkWithCache`
(lines 240-244): the captured entry is marked with the failed sentinel -2
and the promise resolves with `undefined` (the error is only logged); no new
check is scheduled by this handler. -/
def completeFailure (cache : LinkCache) (link : String) : LinkCache :=
  match cacheGet cache link with
  | some entry => cacheSet cache link { entry with lastCheckTime := -2 }
  | none => cache

/-- Translation of the `MarkdownLink` parser interface; the address range is
identified by a number. -/
structure MarkdownLink where
  address : String
  rangeId : Nat
  isInline : Bool
deriving DecidableEq, Repr

/-- Translation of `MarkdownLinkRef`. -/
structure MarkdownLinkRef where
  name : String
  rangeId : Nat
deriving DecidableEq, Repr

/-- Translation of `MarkdownLinkDef`. -/
structure MarkdownLinkDef where
  name : String
  rangeId : Nat
deriving DecidableEq, Repr

/-- Severities of vscode.Diagnostic used by the engine. -/
inductive DiagSeverity where
  | error
  | warning
  | information
  | hint
deriving DecidableEq, Repr

/-- Shapes of the diagnostics produced by `gatherDiagnostics` and
`checkLinkRefs`, carrying the data interpolated into each message. -/
inductive DiagKind where
  | canNotCheck (scheme : Option String)
  | fragmentFailed (fragment : Option String)
  | certExpired
  | requestFailed
  | statusFailed (status : Int)
  | countryRef (cc : String)
  | alreadyDefined (name : String)
  | defNotFound (name : String)
deriving DecidableEq, Repr

/-- Model of a vscode.Diagnostic attached to a range. -/
structure Diagnostic where
  rangeId : Nat
  kind : DiagKind
  severity : DiagSeverity
deriving DecidableEq, Repr

/-- Translation of the local `gather` function of
`DocumentState.gatherDiagnostics` for one link and its check result. -/
def gatherOne (link : MarkdownLink) (result : LinkCheckResult) :
    List Diagnostic :=
  if result.checkType = CheckType.none then
    [Diagnostic.mk link.rangeId (DiagKind.canNotCheck (result.uri.map Uri.scheme))
      DiagSeverity.information]
  else
    (if result.pathFound then
      (if result.hasFragment = some true ∧ result.fragmentFound = false then
        [Diagnostic.mk link.rangeId
          (DiagKind.fragmentFailed (result.uri.map Uri.fragment))
          DiagSeverity.error]
      else [])
    else if result.statusCode = 0 then
      (match result.requestError with
       | some e =>
         if e.code = some "CERT_HAS_EXPIRED" then
           [Diagnostic.mk link.rangeId DiagKind.certExpired DiagSeverity.warning]
         else
           [Diagnostic.mk link.rangeId DiagKind.requestFailed DiagSeverity.error]
       | none =>
         [Diagnostic.mk link.rangeId DiagKind.requestFailed DiagSeverity.error])
    else
      [Diagnostic.mk link.rangeId (DiagKind.statusFailed result.statusCode)
        DiagSeverity.error])
    ++
    (match result.countryCode with
     | some cc =>
       [Diagnostic.mk link.rangeId (DiagKind.countryRef cc) DiagSeverity.warning]
     | none => [])

/-- Translation of the index loop of `DocumentState.gatherDiagnostics`
(lines 254-259): results are aligned with the links of the parse; an
`undefined` result (a failed check) is skipped without producing anything. -/
def gatherDiagnostics : List MarkdownLink → List (Option LinkCheckResult) →
    List Diagnostic
  | link :: links, res :: results =>
    (match res with
     | some r => gatherOne link r
     | none => []) ++ gatherDiagnostics links results
  | _, _ => []

/-- Dropping an undefined result (and its link) leaves the gathered
diagnostics unchanged: the failed link contributes nothing, the others are
unaffected. -/
theorem gatherDiagnostics_skip_none :
    ∀ (i : Nat) (links : List MarkdownLink)
      (results : List (Option LinkCheckResult)),
      results[i]? = some none →
      gatherDiagnostics links results =
        gatherDiagnostics (links.eraseIdx i) (results.eraseIdx i) := by
  intro i
  induction i with
  | zero =>
    intro links results hres
    cases results with
    | nil => simp at hres
    | cons r rs =>
      simp at hres
      subst hres
      cases links with
      | nil => simp [gatherDiagnostics]
      | cons l ls => simp [gatherDiagnostics]
  | succ i ih =>
    intro links results hres
    cases results with
    | nil => simp at hres
    | cons r rs =>
      simp at hres
      cases links with
      | nil => simp [gatherDiagnostics]
      | cons l ls =>
        simp only [gatherDiagnostics, List.eraseIdx_cons_succ]
        rw [ih ls rs hres]

/-- C7 counterexample: the claim that a rejected check is converted into a
per-link diagnostic fails on the code.  It is refuted at a concrete pass
whose first link's check promise rejected (resolving to an undefined
result) and whose second link is a dead web link: the produced diagnostics
consist solely of the second link's status error, and no diagnostic points
at the failed first link (range 0). -/
theorem C7_failed_check_diagnostic_counterexample :
    ¬ ∀ (links : List MarkdownLink) (results : List (Option LinkCheckResult))
        (i : Nat) (h : i < links.length),
        results[i]? = some none →
        ∃ d ∈ gatherDiagnostics links results,
          d.rangeId = (links.get ⟨i, h⟩).rangeId := by
  intro hall
  obtain ⟨d, hd, hd0⟩ := hall
    [MarkdownLink.mk "https://bad.example" 0 true,
     MarkdownLink.mk "https://dead.example" 1 true]
    [none,
     some (LinkCheckResult.mk CheckType.web 404
       (some (Uri.mk "https" "dead.example" "/" "" "")) false false none
       none none none)]
    0 (by decide) (by decide)
  have hmem : d = Diagnostic.mk 1 (DiagKind.statusFailed 404)
      DiagSeverity.error := by
    simpa [gatherDiagnostics, gatherOne] using hd
  rw [hmem] at hd0
  exact absurd hd0 (by decide)

/-- C7 amended: when a check promise rejects, the entry is marked with the
distinguished failed sentinel while keeping its stored promise (nothing new
is started by the handler), the very next access to that entry starts a
fresh check (no automatic retry happens before that), and the rejected check
resolves to an undefined result that is skipped by diagnostics gathering —
producing no per-link diagnostic for the failed link — while leaving every
other link checked and reported exactly as without it. -/
theorem C7_failed_check_memoized_amended :
    (∀ (cache : LinkCache) (link : String) (entry : LinkCacheEntry),
      cacheGet cache link = some entry →
      cacheGet (completeFailure cache link) link =
        some { entry with lastCheckTime := -2 }) ∧
    (∀ (cfgTtl : Option Int) (now : Int) (fresh : Nat) (v : Int)
        (cache : LinkCache) (link : String) (entry : LinkCacheEntry),
      cacheGet cache link = some entry → entry.lastCheckTime = -2 →
      (checkLinkWithCacheStep cfgTtl now fresh v cache link).started = true ∧
      (checkLinkWithCacheStep cfgTtl now fresh v cache link).promise = fresh) ∧
    (∀ (i : Nat) (links : List MarkdownLink)
        (results : List (Option LinkCheckResult)),
      results[i]? = some none →
      gatherDiagnostics links results =
        gatherDiagnostics (links.eraseIdx i) (results.eraseIdx i)) := by
  refine ⟨?_, ?_, gatherDiagnostics_skip_none⟩
  · intro cache link entry hget
    unfold completeFailure
    rw [hget]
    exact cacheGet_cacheSet cache link _
  · intro cfgTtl now fresh v cache link entry hget hfail
    have h := checkStep_start_failed cfgTtl now fresh v cache link entry hget hfail
    rw [h]
    exact And.intro rfl rfl

/-- Witness: C7 amended applied to a concrete failed entry and to the
two-link pass of the counterexample scenario. -/
theorem C7_failed_check_memoized_amended_witness :
    (cacheGet (completeFailure
        [("https://a", LinkCacheEntry.mk 4 (-1) 1 none false)] "https://a")
        "https://a" = some (LinkCacheEntry.mk 4 (-2) 1 none false)) ∧
    ((checkLinkWithCacheStep none 7 9 2
        [("https://a", LinkCacheEntry.mk 4 (-2) 1 none false)]
        "https://a").started = true) ∧
    (gatherDiagnostics
        [MarkdownLink.mk "a" 0 true, MarkdownLink.mk "b" 1 true]
        [none, none] =
      gatherDiagnostics [MarkdownLink.mk "b" 1 true] [none]) :=
  And.intro
    ((C7_failed_check_memoized_amended.1
      [("https://a", LinkCacheEntry.mk 4 (-1) 1 none false)] "https://a"
      (LinkCacheEntry.mk 4 (-1) 1 none false) (by decide)).trans (by decide))
    (And.intro
      ((C7_failed_check_memoized_amended.2.1 none 7 9 2
        [("https://a", LinkCacheEntry.mk 4 (-2) 1 none false)] "https://a"
        (LinkCacheEntry.mk 4 (-2) 1 none false) (by decide) (by decide)).1)
      (C7_failed_check_memoized_amended.2.2 0
        [MarkdownLink.mk "a" 0 true, MarkdownLink.mk "b" 1 true]
        [none, none] (by decide)))

/-! ## Translation of the Document Processing Pipeline
(DocumentState.processDocumentSeq and its helpers) -/

/-- Fields of `MarkdownParsingResult` consumed by the pipeline. -/
structure ParsingResult where
  headings : List Slug
  links : List MarkdownLink
  linkRefs : List MarkdownLinkRef
  linkDefs : List MarkdownLinkDef
deriving DecidableEq, Repr

/-- Translation of the `ParsedDocument` class (headings kept as their
slugged values, which is all the pipeline compares). -/
structure ParsedDocument where
  uri : Uri
  documentVersion : Int
  headings : List Slug
  links : List MarkdownLink
  linkRefs : List MarkdownLinkRef
  linkDefs : List MarkdownLinkDef
deriving DecidableEq, Repr

/-- Translation of `sluggedHeadersChanged`: true when either side is
missing, false when the slug sequences agree in length and pointwise
equality. -/
def sluggedHeadersChanged (before after : Option ParsedDocument) : Bool :=
  match before, after with
  | some b, some a =>
    !(b.headings.length == a.headings.length &&
      (b.headings.zip a.headings).all (fun p => p.1.equals p.2))
  | _, _ => true

/-- Association-list lookup keyed by strings (model of `Map.get` for the
reference-definition set). -/
def assocGet {α : Type} : List (String × α) → String → Option α
  | [], _ => none
  | kv :: rest, k => if kv.1 == k then some kv.2 else assocGet rest k

/-- Translation of `DocumentState.checkLinkRefs`: first walk the definitions
building a first-wins name map and reporting duplicate definitions, then
report every reference whose name has no definition. -/
def checkLinkRefs (parsedRefs : List MarkdownLinkRef)
    (parsedDefs : List MarkdownLinkDef) : List Diagnostic :=
  let step := fun (acc : List Diagnostic × List (String × MarkdownLinkDef))
      (d : MarkdownLinkDef) =>
    match assocGet acc.2 d.name with
    | some _ =>
      (acc.1 ++ [Diagnostic.mk d.rangeId (DiagKind.alreadyDefined d.name)
        DiagSeverity.error], acc.2)
    | none => (acc.1, acc.2 ++ [(d.name, d)])
  let dupAndSet := parsedDefs.foldl step ([], [])
  dupAndSet.1 ++ parsedRefs.filterMap (fun r =>
    match assocGet dupAndSet.2 r.name with
    | some _ => none
    | none =>
      some (Diagnostic.mk r.rangeId (DiagKind.defNotFound r.name)
        DiagSeverity.error))

/-- State of one `DocumentState` between passes: the document version seen
by the pass, the memoized parse, the last fully processed parse, the two
reset flags, and the link cache. -/
structure DocState where
  docVersion : Int
  parsed : Option ParsedDocument
  lastProcessedDocument : Option ParsedDocument
  resetCaches : Bool
  resetLastProcessed : Bool
  linkCache : LinkCache
deriving DecidableEq, Repr

/-- Observable effects of one pass: parser invocations, versions published
on the document's own registry, checks started (prober invocations),
subscriptions torn down, subscriptions created (target uri and handle), and
the diagnostic set replacement (none when the pass did not publish one). -/
structure PassEffects where
  parses : Nat
  published : List (Option Int)
  probes : Nat
  unsubs : List Nat
  subsCreated : List (Uri × Nat)
  diagnosticsSet : Option (List Diagnostic)
deriving DecidableEq, Repr

/-- Effects of a pass that did nothing. -/
def emptyEffects : PassEffects := PassEffects.mk 0 [] 0 [] [] none

/-- Translation of `parseDocumentCore` as used inside a pass: reuse the
memoized parse when its version matches, otherwise invoke the parser (the
oracle `parser` gives the deterministic parse of the current version) and
publish the document's own version when the slugged headings changed.
Returns the parse, the number of parser invocations, and the published
versions. -/
def parseDocumentCoreStep (docUri : Uri) (parser : Int → ParsingResult)
    (st : DocState) : ParsedDocument × Nat × List (Option Int) :=
  match st.parsed with
  | some prev =>
    if prev.documentVersion = st.docVersion then (prev, 0, [])
    else
      let pr := parser st.docVersion
      let pd := ParsedDocument.mk docUri st.docVersion pr.headings pr.links
        pr.linkRefs pr.linkDefs
      (pd, 1,
       if sluggedHeadersChanged (some prev) (some pd) then [some st.docVersion]
       else [])
  | none =>
    let pr := parser st.docVersion
    let pd := ParsedDocument.mk docUri st.docVersion pr.headings pr.links
      pr.linkRefs pr.linkDefs
    (pd, 1,
     if sluggedHeadersChanged none (some pd) then [some st.docVersion] else [])

/-- Translation of the fulfilled-promise handler of `checkLinkWithCache`
(lines 202-239): store the completion time on the entry; when the result
carries a linked document of a different uri, or a file/untitled uri,
subscribe to that target (recording the unsubscribe handle), and flag a
same-document target as a local link instead.  Returns the updated cache
and the subscriptions created.  A stale completion whose entry was already
evicted from the map only mutates the orphaned object, which the cache no
longer sees. -/
def completeSuccess (parsedDoc : ParsedDocument) (freshSub : Nat)
    (checkTime : Int) (result : LinkCheckResult) (cache : LinkCache)
    (link : String) : LinkCache × List (Uri × Nat) :=
  match cacheGet cache link with
  | none => (cache, [])
  | some entry =>
    let entry1 := { entry with lastCheckTime := checkTime }
    match result.linkedDocument with
    | some ld =>
      if ld.uri = parsedDoc.uri then
        (cacheSet cache link { entry1 with localLink := true }, [])
      else
        (cacheSet cache link { entry1 with linkedDocSubscription := some freshSub },
         [(ld.uri, freshSub)])
    | none =>
      match result.uri with
      | some u =>
        if u.scheme = "file" ∨ u.scheme = "untitled" then
          (cacheSet cache link
            { entry1 with linkedDocSubscription := some freshSub },
           [(u.withFragment "", freshSub)])
        else (cacheSet cache link entry1, [])
      | none => (cacheSet cache link entry1, [])

/-- Synchronous phase of `Promise.all(parsed.links.map(l =>
checkLinkWithCache(l.address, parsed)))`: the map callback runs
`checkLinkWithCache` for every link in order before any completion is
awaited.  Returns the cache, one (address, promise, started) decision per
link, the next fresh promise id, and subscriptions torn down on expiry. -/
def runDecisions (cfgTtl : Option Int) (now : Int) (v : Int) :
    List MarkdownLink → LinkCache → Nat →
    LinkCache × List (String × Nat × Bool) × Nat × List Nat
  | [], cache, fresh => (cache, [], fresh, [])
  | l :: ls, cache, fresh =>
    let d := checkLinkWithCacheStep cfgTtl now fresh v cache l.address
    let fresh2 := if d.started then fresh + 1 else fresh
    let r := runDecisions cfgTtl now v ls d.cache fresh2
    (r.1, (l.address, d.promise, d.started) :: r.2.1, r.2.2.1,
     d.unsubbed.toList ++ r.2.2.2)

/-- Completion phase of the awaited `Promise.all`: every check started in
this pass settles, running the fulfilled handler (`completeSuccess`) with
the prober's result or the rejection handler (`completeFailure`) when the
prober rejected.  Returns the cache, subscriptions created, and the next
fresh subscription id. -/
def runCompletions (parsedDoc : ParsedDocument)
    (prober : String → Option LinkCheckResult) (checkTime : Int) :
    List (String × Nat × Bool) → LinkCache → Nat →
    LinkCache × List (Uri × Nat) × Nat
  | [], cache, subFresh => (cache, [], subFresh)
  | dec :: rest, cache, subFresh =>
    if dec.2.2 then
      match prober dec.1 with
      | some result =>
        let cs := completeSuccess parsedDoc subFresh checkTime result cache dec.1
        let r := runCompletions parsedDoc prober checkTime rest cs.1
          (subFresh + cs.2.length)
        (r.1, cs.2 ++ r.2.1, r.2.2)
      | none =>
        runCompletions parsedDoc prober checkTime rest
          (completeFailure cache dec.1) subFresh
    else runCompletions parsedDoc prober checkTime rest cache subFresh

/-- Values of the promises created in this pass: a started decision's
promise resolves to the prober's outcome for its address. -/
def startedVal (prober : String → Option LinkCheckResult)
    (decisions : List (String × Nat × Bool)) :
    List (Nat × Option LinkCheckResult) :=
  decisions.filterMap
    (fun dec => if dec.2.2 then some (dec.2.1, prober dec.1) else none)

/-- Resolved value observed for each link of the pass: promises started in
this pass resolve through the prober, reused promises from earlier passes
through the ambient valuation `promVal`. -/
def resolveResults (promVal : Nat → Option LinkCheckResult)
    (table : List (Nat × Option LinkCheckResult))
    (decisions : List (String × Nat × Bool)) : List (Option LinkCheckResult) :=
  decisions.map (fun dec =>
    match List.lookup dec.2.1 table with
    | some vres => vres
    | none => promVal dec.2.1)

/-- Translation of the eviction sweep (lines 159-164): every entry whose
`lastVisitDocVersion` is not the version just processed is removed and its
subscription, when present, is invoked (torn down). -/
def sweepCache (cache : LinkCache) (v : Int) : LinkCache × List Nat :=
  (cache.filter (fun kv => kv.2.lastVisitDocVersion == v),
   (cache.filter (fun kv => !(kv.2.lastVisitDocVersion == v))).filterMap
     (fun kv => kv.2.linkedDocSubscription))

/-- Main body of a pass after the reset handling and the version guard:
parse (memoized), evict local-link entries when the slugged headings
changed, collect reference diagnostics, run all link checks through the
cache, await the completions, sweep the cache, and atomically replace the
diagnostics. -/
def processDocumentRun (docUri : Uri) (parser : Int → ParsingResult)
    (prober : String → Option LinkCheckResult)
    (promVal : Nat → Option LinkCheckResult) (cfgTtl : Option Int)
    (now checkTime : Int) (freshPromiseBase freshSubBase : Nat)
    (resetUnsubs : List Nat) (st1 : DocState) : DocState × PassEffects :=
  let pp := parseDocumentCoreStep docUri parser st1
  let parsedDoc := pp.1
  let st2 := { st1 with parsed := some parsedDoc }
  let cacheA :=
    if sluggedHeadersChanged st2.lastProcessedDocument (some parsedDoc) then
      st2.linkCache.filter (fun kv => !kv.2.localLink)
    else st2.linkCache
  let refDiags := checkLinkRefs parsedDoc.linkRefs parsedDoc.linkDefs
  let rd := runDecisions cfgTtl now st2.docVersion parsedDoc.links cacheA
    freshPromiseBase
  let decisions := rd.2.1
  let rc := runCompletions parsedDoc prober checkTime decisions rd.1
    freshSubBase
  let results := resolveResults promVal (startedVal prober decisions) decisions
  let sw := sweepCache rc.1 st2.docVersion
  let linkDiags := gatherDiagnostics parsedDoc.links results
  let diags := refDiags ++ linkDiags
  let st3 := { st2 with linkCache := sw.1
                      , lastProcessedDocument := some parsedDoc }
  (st3,
   PassEffects.mk pp.2.1 pp.2.2 ((decisions.filter (fun dec => dec.2.2)).length)
     (resetUnsubs ++ rd.2.2.2 ++ sw.2) rc.2.1 (some diags))

/-- Subscriptions disposed by `disposeLinkCache` when a cache reset is
pending at the start of a pass. -/
def resetUnsubsOf (st : DocState) : List Nat :=
  if st.resetCaches then
    st.linkCache.filterMap (fun kv => kv.2.linkedDocSubscription)
  else []

/-- Translation of the reset handling at the start of a pass (lines
117-126): a cache reset clears the cache, the parse memo, the last
processed parse and both flags; a last-processed reset clears only the
last processed parse and its flag. -/
def applyResets (st : DocState) : DocState :=
  if st.resetCaches then
    { st with linkCache := []
            , parsed := none
            , lastProcessedDocument := none
            , resetCaches := false
            , resetLastProcessed := false }
  else if st.resetLastProcessed then
    { st with lastProcessedDocument := none, resetLastProcessed := false }
  else st

/-- Resets never change the document version seen by the pass. -/
theorem applyResets_docVersion (st : DocState) :
    (applyResets st).docVersion = st.docVersion := by
  unfold applyResets
  split
  · rfl
  · split <;> rfl

/-- Translation of `DocumentState.processDocumentSeq` (lines 115-173): apply
the pending reset flags, then return immediately when the document version
equals the last fully processed version, otherwise run the pass body. -/
def processDocumentSeq (docUri : Uri) (parser : Int → ParsingResult)
    (prober : String → Option LinkCheckResult)
    (promVal : Nat → Option LinkCheckResult) (cfgTtl : Option Int)
    (now checkTime : Int) (freshPromiseBase freshSubBase : Nat)
    (st : DocState) : DocState × PassEffects :=
  let st1 := applyResets st
  if st1.lastProcessedDocument.map ParsedDocument.documentVersion =
      some st1.docVersion then
    (st1, { emptyEffects with unsubs := resetUnsubsOf st })
  else
    processDocumentRun docUri parser prober promVal cfgTtl now checkTime
      freshPromiseBase freshSubBase (resetUnsubsOf st) st1

/-- C2: a pass that starts while the document version equals the last fully
processed version with neither reset flag set is a no-op: the state is
unchanged and no parse, no check, no publication, no subscription change and
no diagnostics replacement happens. -/
theorem C2_unchanged_version_pass_noop (docUri : Uri)
    (parser : Int → ParsingResult) (prober : String → Option LinkCheckResult)
    (promVal : Nat → Option LinkCheckResult) (cfgTtl : Option Int)
    (now checkTime : Int) (freshPromiseBase freshSubBase : Nat) (st : DocState)
    (p : ParsedDocument) (h1 : st.resetCaches = false)
    (h2 : st.resetLastProcessed = false)
    (h3 : st.lastProcessedDocument = some p)
    (h4 : p.documentVersion = st.docVersion) :
    processDocumentSeq docUri parser prober promVal cfgTtl now checkTime
      freshPromiseBase freshSubBase st = (st, emptyEffects) := by
  unfold processDocumentSeq
  simp [h1, h2, h3, h4, emptyEffects, applyResets, resetUnsubsOf]

/-- Witness: C2 applied to a concrete already-processed state. -/
theorem C2_unchanged_version_pass_noop_witness :
    processDocumentSeq (Uri.mk "file" "" "/ws/a.md" "" "")
      (fun _ => ParsingResult.mk [] [] [] []) (fun _ => none) (fun _ => none)
      none 0 0 0 0
      (DocState.mk 3
        (some (ParsedDocument.mk (Uri.mk "file" "" "/ws/a.md" "" "") 3 [] [] [] []))
        (some (ParsedDocument.mk (Uri.mk "file" "" "/ws/a.md" "" "") 3 [] [] [] []))
        false false []) =
    (DocState.mk 3
      (some (ParsedDocument.mk (Uri.mk "file" "" "/ws/a.md" "" "") 3 [] [] [] []))
      (some (ParsedDocument.mk (Uri.mk "file" "" "/ws/a.md" "" "") 3 [] [] [] []))
      false false [], emptyEffects) :=
  C2_unchanged_version_pass_noop (Uri.mk "file" "" "/ws/a.md" "" "")
    (fun _ => ParsingResult.mk [] [] [] []) (fun _ => none) (fun _ => none)
    none 0 0 0 0
    (DocState.mk 3
      (some (ParsedDocument.mk (Uri.mk "file" "" "/ws/a.md" "" "") 3 [] [] [] []))
      (some (ParsedDocument.mk (Uri.mk "file" "" "/ws/a.md" "" "") 3 [] [] [] []))
      false false [])
    (ParsedDocument.mk (Uri.mk "file" "" "/ws/a.md" "" "") 3 [] [] [] [])
    rfl rfl rfl rfl

/-- Every cache entry surviving the pass body was visited at the processed
version: the final cache is the sweep's filter at that version. -/
theorem processDocumentRun_cache_version (docUri : Uri)
    (parser : Int → ParsingResult) (prober : String → Option LinkCheckResult)
    (promVal : Nat → Option LinkCheckResult) (cfgTtl : Option Int)
    (now checkTime : Int) (freshPromiseBase freshSubBase : Nat)
    (resetUnsubs : List Nat) (st1 : DocState) :
    ∀ kv ∈ (processDocumentRun docUri parser prober promVal cfgTtl now
        checkTime freshPromiseBase freshSubBase resetUnsubs st1).1.linkCache,
      kv.2.lastVisitDocVersion = st1.docVersion := by
  intro kv hkv
  simp only [processDocumentRun, sweepCache] at hkv
  rw [List.mem_filter] at hkv
  simpa using hkv.2

/-- C8: after every completed pass (one that replaced the diagnostic set)
every surviving cache entry carries the processed version; the sweep removes
every entry whose `lastVisitDocVersion` differs from the processed version
and tears its subscription down when it has one; and unsubscribing a
registered handler from a registry strictly decreases its handler count. -/
theorem C8_eviction_sweep :
    (∀ (docUri : Uri) (parser : Int → ParsingResult)
        (prober : String → Option LinkCheckResult)
        (promVal : Nat → Option LinkCheckResult) (cfgTtl : Option Int)
        (now checkTime : Int) (freshPromiseBase freshSubBase : Nat)
        (st : DocState),
      (processDocumentSeq docUri parser prober promVal cfgTtl now checkTime
        freshPromiseBase freshSubBase st).2.diagnosticsSet ≠ none →
      ∀ kv ∈ (processDocumentSeq docUri parser prober promVal cfgTtl now
          checkTime freshPromiseBase freshSubBase st).1.linkCache,
        kv.2.lastVisitDocVersion = st.docVersion) ∧
    (∀ (cache : LinkCache) (v : Int) (kv : String × LinkCacheEntry),
      kv ∈ cache → kv.2.lastVisitDocVersion ≠ v →
      kv ∉ (sweepCache cache v).1 ∧
      ∀ sid, kv.2.linkedDocSubscription = some sid →
        sid ∈ (sweepCache cache v).2) ∧
    (∀ (m : SubManager) (h : Nat), h ∈ m.handlers → m.handlers.Nodup →
      (m.unsubscribe h).handlers.length + 1 = m.handlers.length ∧
      h ∉ (m.unsubscribe h).handlers) := by
  refine ⟨?_, ?_, ?_⟩
  · intro docUri parser prober promVal cfgTtl now checkTime fp fs st hdiag kv hkv
    simp only [processDocumentSeq] at hdiag hkv
    split at hdiag
    · simp [emptyEffects] at hdiag
    · rename_i hg
      rw [if_neg hg] at hkv
      have hv := processDocumentRun_cache_version docUri parser prober promVal
        cfgTtl now checkTime fp fs _ _ kv hkv
      rw [hv]
      exact applyResets_docVersion st
  · intro cache v kv hkv hne
    constructor
    · intro hmem
      rw [sweepCache] at hmem
      simp only [List.mem_filter] at hmem
      exact hne (by simpa using hmem.2)
    · intro sid hsid
      rw [sweepCache]
      simp only [List.mem_filterMap]
      refine ⟨kv, ?_, hsid⟩
      rw [List.mem_filter]
      refine ⟨hkv, ?_⟩
      simpa using hne
  · intro m h hmem hnd
    constructor
    · have h1 := List.length_erase_of_mem hmem
      have h2 : 0 < m.handlers.length := List.length_pos_of_mem hmem
      simp only [SubManager.unsubscribe]
      omega
    · intro hc
      simp only [SubManager.unsubscribe] at hc
      rw [List.Nodup.mem_erase_iff hnd] at hc
      exact hc.1 rfl

/-- Witness: C8 applied to a concrete completed pass over a document (version
2) whose single link "x.md" has a still-fresh cache entry (its entry is
revisited and survives with the processed version), to the sweep of a cache
holding a stale entry with subscription 7, and to a registry with two
handlers. -/
theorem C8_eviction_sweep_witness :
    (("x.md", LinkCacheEntry.mk 4 100 2 (some 7) false) ∈
      (processDocumentSeq (Uri.mk "file" "" "/ws/a.md" "" "")
        (fun _ => ParsingResult.mk [] [MarkdownLink.mk "x.md" 0 true] [] [])
        (fun _ => none) (fun _ => none) none 0 0 0 0
        (DocState.mk 2 none none false false
          [("x.md", LinkCacheEntry.mk 4 100 1 (some 7) false)])).1.linkCache ∧
      (LinkCacheEntry.mk 4 100 2 (some 7) false).lastVisitDocVersion = 2) ∧
    (("x.md", LinkCacheEntry.mk 4 100 1 (some 7) false) ∉
      (sweepCache [("x.md", LinkCacheEntry.mk 4 100 1 (some 7) false)] 2).1 ∧
      7 ∈ (sweepCache [("x.md", LinkCacheEntry.mk 4 100 1 (some 7) false)] 2).2) ∧
    ((SubManager.mk (some 5) [7, 9]).unsubscribe 7).handlers.length + 1 =
      (SubManager.mk (some 5) [7, 9]).handlers.length :=
  And.intro
    (And.intro (by decide)
      (C8_eviction_sweep.1 (Uri.mk "file" "" "/ws/a.md" "" "")
        (fun _ => ParsingResult.mk [] [MarkdownLink.mk "x.md" 0 true] [] [])
        (fun _ => none) (fun _ => none) none 0 0 0 0
        (DocState.mk 2 none none false false
          [("x.md", LinkCacheEntry.mk 4 100 1 (some 7) false)])
        (by decide) ("x.md", LinkCacheEntry.mk 4 100 2 (some 7) false)
        (by decide)))
    (And.intro
      (And.intro
        ((C8_eviction_sweep.2.1 [("x.md", LinkCacheEntry.mk 4 100 1 (some 7) false)]
          2 ("x.md", LinkCacheEntry.mk 4 100 1 (some 7) false) (by decide)
          (by decide)).1)
        ((C8_eviction_sweep.2.1 [("x.md", LinkCacheEntry.mk 4 100 1 (some 7) false)]
          2 ("x.md", LinkCacheEntry.mk 4 100 1 (some 7) false) (by decide)
          (by decide)).2 7 rfl))
      ((C8_eviction_sweep.2.2 (SubManager.mk (some 5) [7, 9]) 7 (by decide)
        (by decide)).1))

end MdLinkChecker
